import Mathlib

/-!
Verification of the lease-based locking core of the arvo-storage repository.

The development shallowly embeds the two locking backends:

* `LocalJsonLock` — the file-backed manager (`src/LockingManagers/LocalJsonLock/index.ts`).
  Its persisted JSON mapping from resource path to lock record is modelled as an
  association list `Rec LockInfo`; every public operation reloads and rewrites the
  whole mapping, so in the sequential (single-process) model the state is just that
  mapping plus the uuid source.
* `DynamoDBLock` — the conditional-store manager (`src/LockingManagers/DynamoDBLock/index.ts`).
  The table is an association list of items whose timestamps are unix seconds
  (`dateToUnixTimestampInSeconds` floors milliseconds), and the conditional
  put/delete/update primitives are embedded as partial updates that fail exactly
  when the DynamoDB condition expression would raise `ConditionalCheckFailedException`.

Timestamps are integers in milliseconds (JavaScript `Date.getTime()`); the current
clock value `now` is passed explicitly to every operation that consults it.
The `uuidv4` source is modelled as an injective generator indexed by a counter held
in the manager state: each successful acquisition consumes one fresh index.
-/

/-- Caller-supplied metadata, opaque to the lock managers. -/
abbrev Metadata := List (String × String)

/-- The lock record model (`LockInfo` in `src/LockingManagers/types.ts`), with
timestamps in milliseconds. -/
structure LockInfo where
  lockId : String
  acquiredAt : Int
  expiresAt : Int
  metadata : Metadata
deriving Repr, DecidableEq

/-- A possibly malformed lock record, as JavaScript would allow to reach
`isLockExpired`: any of the fields may be missing (`undefined`). -/
structure RawLockInfo where
  lockId : Option String
  acquiredAt : Option Int
  expiresAt : Option Int
  metadata : Metadata
deriving Repr, DecidableEq

/-- View of a well-formed record as a raw record with all fields present. -/
def LockInfo.raw (l : LockInfo) : RawLockInfo :=
  ⟨some l.lockId, some l.acquiredAt, some l.expiresAt, l.metadata⟩

/-- Embedding of `isLockExpired` (`src/LockingManagers/utils/index.ts`): throws a
`TypeError` when the record is missing (`!lock`) or has no `expiresAt` field;
otherwise a record is expired iff `expiresAt <= now`. -/
def isLockExpired (now : Int) (lock : Option RawLockInfo) : Except String Bool :=
  match lock with
  | none => Except.error "Invalid lock information provided"
  | some l =>
    match l.expiresAt with
    | none => Except.error "Invalid lock information provided"
    | some e => Except.ok (decide (e ≤ now))

/-- Total expiry test used by the backends on well-formed records; agrees with
`isLockExpired` on those records (see `isLockExpired_raw`). -/
def lockExpired (now : Int) (l : LockInfo) : Bool :=
  decide (l.expiresAt ≤ now)

/-- Embedding of `dateToUnixTimestampInSeconds` (`src/utils/index.ts`):
`Math.floor(date.getTime() / 1000)`, i.e. floor division of milliseconds by 1000. -/
def dateToUnixTimestampInSeconds (ms : Int) : Int :=
  Int.fdiv ms 1000

/-- Embedding of `unixTimestampInSecondsToDate` (`src/utils/index.ts`):
`new Date(timestamp * 1000)`. -/
def unixTimestampInSecondsToDate (s : Int) : Int :=
  s * 1000

/-- The default DynamoDB hash key attribute name (`src/utils/dynamodb`). -/
def defaultHashKey : String := "path_key"

/-- The shared default lock configuration type
(`src/LockingManagers/utils/defaultLockConfiguration/types.ts`). -/
structure DefaultLockConfiguration where
  timeout : Int
  retries : Nat
  retryDelay : Int
deriving Repr, DecidableEq

/-- The shared default lock configuration value
(`src/LockingManagers/utils/defaultLockConfiguration`). -/
def defaultLockConfiguration : DefaultLockConfiguration :=
  ⟨30000, 2, 1000⟩

/-- Per-call options of `acquireLock` (`LockOptions` in `src/LockingManagers/types.ts`);
a `none` field is an omitted option. -/
structure LockOptions where
  timeout : Option Int := none
  retries : Option Nat := none
  retryDelay : Option Int := none
  metadata : Option Metadata := none
deriving Repr, DecidableEq

/-- Result of a lock acquisition attempt (`LockResult` in `src/LockingManagers/types.ts`). -/
structure LockResult where
  success : Bool
  lockId : Option String := none
  expiresAt : Option Int := none
  error : Option String := none
deriving Repr, DecidableEq

/-- JavaScript truthiness of an optional string argument: `undefined` and the
empty string are falsy, every other string is truthy. -/
def jsTruthy : Option String → Bool
  | none => false
  | some s => s ≠ ""

/-- The uuid source: an injective generator of nonempty strings indexed by the
number of ids generated so far. Models `uuidv4()` producing a fresh identifier on
every call. -/
def uuidv4 (n : Nat) : String :=
  String.mk (List.replicate (n + 1) 'u')

/-- A JavaScript object used as a string-keyed map, as an association list
(first binding for a key wins). -/
abbrev Rec (α : Type) := List (String × α)

/-- Property lookup `m[k]`. -/
def recGet {α : Type} : Rec α → String → Option α
  | [], _ => none
  | e :: rest, k => if e.1 = k then some e.2 else recGet rest k

/-- Property deletion `delete m[k]`. -/
def recDelete {α : Type} (m : Rec α) (k : String) : Rec α :=
  m.filter fun e => e.1 ≠ k

/-- Property assignment `m[k] = v`. -/
def recSet {α : Type} (m : Rec α) (k : String) (v : α) : Rec α :=
  (k, v) :: recDelete m k

theorem isLockExpired_raw (now : Int) (l : LockInfo) :
    isLockExpired now (some l.raw) = Except.ok (lockExpired now l) := rfl

theorem uuidv4_injective : Function.Injective uuidv4 := by
  intro a b h
  have hlen : (List.replicate (a + 1) 'u').length = (List.replicate (b + 1) 'u').length := by
    have : (uuidv4 a).data = (uuidv4 b).data := by rw [h]
    simpa [uuidv4] using congrArg List.length this
  simpa [List.length_replicate] using hlen

theorem uuidv4_ne_empty (n : Nat) : uuidv4 n ≠ "" := by
  intro h
  have : (uuidv4 n).data = ("" : String).data := by rw [h]
  simp [uuidv4] at this

theorem recGet_recDelete_self {α : Type} (m : Rec α) (k : String) :
    recGet (recDelete m k) k = none := by
  induction m with
  | nil => rfl
  | cons e rest ih =>
    by_cases hek : e.1 = k
    · simpa [recDelete, hek] using ih
    · simpa [recDelete, recGet, hek] using ih

theorem recDelete_cons {α : Type} (e : String × α) (rest : Rec α) (k : String) :
    recDelete (e :: rest) k =
      if e.1 = k then recDelete rest k else e :: recDelete rest k := by
  by_cases hek : e.1 = k <;> simp [recDelete, List.filter_cons, hek]

theorem recGet_recDelete_ne {α : Type} (m : Rec α) {k q : String} (h : q ≠ k) :
    recGet (recDelete m k) q = recGet m q := by
  induction m with
  | nil => rfl
  | cons e rest ih =>
    rw [recDelete_cons]
    by_cases hek : e.1 = k
    · have heq : e.1 ≠ q := by rw [hek]; exact fun hq => h hq.symm
      rw [if_pos hek, ih]
      simp [recGet, heq]
    · rw [if_neg hek]
      by_cases heq : e.1 = q
      · simp [recGet, heq]
      · simp [recGet, heq, ih]

theorem recGet_recSet_self {α : Type} (m : Rec α) (k : String) (v : α) :
    recGet (recSet m k v) k = some v := by
  simp [recSet, recGet]

theorem recGet_recSet_ne {α : Type} (m : Rec α) {k q : String} (v : α) (h : q ≠ k) :
    recGet (recSet m k v) q = recGet m q := by
  have : k ≠ q := fun hk => h hk.symm
  simp [recSet, recGet, this, recGet_recDelete_ne m h]

namespace LocalJsonLock

/-- The file-backed lock mapping: resource path to stored record. Dates are kept
as millisecond integers; the on-disk ISO-8601 serialization round-trips at
millisecond precision, so it is not modelled separately. -/
abbrev Locks := Rec LockInfo

/-- State of the file backend in the sequential model: the persisted mapping
plus the uuid counter. -/
structure State where
  locks : Locks
  nextId : Nat
deriving Repr, DecidableEq

/-- `LocalJsonLock.isLocked`: the path holds a record and that record is not
expired. Reads only; never mutates the mapping. -/
def isLocked (now : Int) (locks : Locks) (p : String) : Bool :=
  match recGet locks p with
  | none => false
  | some l => !(lockExpired now l)

/-- `LocalJsonLock.getLockInfo`: returns the record unless absent or expired.
The mapping is returned unchanged — this backend performs no reclamation
deletion on an expired record. -/
def getLockInfo (now : Int) (locks : Locks) (p : String) : Option LockInfo × Locks :=
  match recGet locks p with
  | none => (none, locks)
  | some l => if lockExpired now l then (none, locks) else (some l, locks)

/-- The `timeout` default of `LocalJsonLock.acquireLock` (destructuring default
in the source: 30000). -/
def resolvedTimeout (o : LockOptions) : Int := o.timeout.getD 30000

/-- The `retries` default of `LocalJsonLock.acquireLock` (destructuring default
in the source: 1). -/
def resolvedRetries (o : LockOptions) : Nat := o.retries.getD 1

/-- The `retryDelay` default of `LocalJsonLock.acquireLock` (destructuring default
in the source: 1000). -/
def resolvedRetryDelay (o : LockOptions) : Int := o.retryDelay.getD 1000

/-- The value returned after exhausting all attempts. -/
def failedResult : LockResult :=
  ⟨false, none, none, some "Failed to acquire lock after retries"⟩

/-- The attempt loop of `LocalJsonLock.acquireLock`, with `fuel` attempts left.
Besides the result and the state it returns the number of attempts performed
and the number of `retryDelay` waits taken, which in the source are the per-attempt
log line and the `setTimeout` sleep between attempts. -/
def acquireLoop (now timeout : Int) (meta : Metadata) (p : String) :
    Nat → State → LockResult × State × Nat × Nat
  | 0, st => (failedResult, st, 0, 0)
  | fuel + 1, st =>
    if isLocked now st.locks p then
      if fuel = 0 then
        (failedResult, st, 1, 0)
      else
        let r := acquireLoop now timeout meta p fuel st
        (r.1, r.2.1, r.2.2.1 + 1, r.2.2.2 + 1)
    else
      let lockId := uuidv4 st.nextId
      let record : LockInfo := ⟨lockId, now, now + timeout, meta⟩
      (⟨true, some lockId, some (now + timeout), none⟩,
        ⟨recSet st.locks p record, st.nextId + 1⟩, 1, 0)

/-- `LocalJsonLock.acquireLock`: resolves option defaults and runs
`retries + 1` attempts. -/
def acquireLock (now : Int) (p : String) (options : LockOptions) (st : State) :
    LockResult × State × Nat × Nat :=
  acquireLoop now (resolvedTimeout options) (options.metadata.getD []) p
    (resolvedRetries options + 1) st

/-- `LocalJsonLock.releaseLock`: absent path is an idempotent no-op returning true;
a truthy `lockId` that does not match the stored id returns false without deleting;
otherwise the record is deleted and true returned. -/
def releaseLock (locks : Locks) (p : String) (lockId : Option String) : Bool × Locks :=
  match recGet locks p with
  | none => (true, locks)
  | some l =>
    if jsTruthy lockId ∧ some l.lockId ≠ lockId then (false, locks)
    else (true, recDelete locks p)

/-- `LocalJsonLock.forceReleaseLock`: deletes whatever is stored and returns true. -/
def forceReleaseLock (locks : Locks) (p : String) : Bool × Locks :=
  match recGet locks p with
  | none => (true, locks)
  | some _ => (true, recDelete locks p)

/-- `LocalJsonLock.extendLock`: fails only when the record is absent or the id
does not match; otherwise advances `expiresAt` by `duration` relative to the
stored value. The source consults no clock here: expiry is not checked. -/
def extendLock (locks : Locks) (p : String) (lockId : String) (duration : Int) :
    Bool × Locks :=
  match recGet locks p with
  | none => (false, locks)
  | some l =>
    if l.lockId ≠ lockId then (false, locks)
    else (true, recSet locks p { l with expiresAt := l.expiresAt + duration })

/-- All stored lock ids were produced by the uuid source at indices below the
counter. Holds in every reachable state. -/
def GoodIds (st : State) : Prop :=
  ∀ p l, recGet st.locks p = some l → ∃ k, k < st.nextId ∧ l.lockId = uuidv4 k

end LocalJsonLock

namespace DynamoDBLock

/-- A persisted DynamoDB lock item: timestamps are integer unix seconds
(the marshalled numeric attributes). -/
structure LockItem where
  lockId : String
  acquiredAt : Int
  expiresAt : Int
  metadata : Metadata
deriving Repr, DecidableEq

/-- The lock table: one item per resource path, keyed by the hash key value. -/
abbrev Table := Rec LockItem

/-- State of the store backend in the sequential model. -/
structure State where
  table : Table
  nextId : Nat
deriving Repr, DecidableEq

/-- Construction-time configuration (`IDynamoDBLockConfig`). -/
structure Config where
  tableName : String
  hashKey : Option String := none
  defaultLockConfiguration : Option DefaultLockConfiguration := none

/-- A constructed `DynamoDBLock` instance: the constructor applies the
`path_key` hash key default and the shared lock configuration default. -/
structure Manager where
  tableName : String
  hashKey : String
  defaultLockConfiguration : DefaultLockConfiguration
deriving Repr, DecidableEq

/-- The `DynamoDBLock` constructor. -/
def make (cfg : Config) : Manager :=
  ⟨cfg.tableName, cfg.hashKey.getD defaultHashKey,
    cfg.defaultLockConfiguration.getD defaultLockConfiguration⟩

/-- Unmarshalling a stored item into a `LockInfo` (seconds to milliseconds via
`unixTimestampInSecondsToDate`). -/
def itemToLockInfo (it : LockItem) : LockInfo :=
  ⟨it.lockId, unixTimestampInSecondsToDate it.acquiredAt,
    unixTimestampInSecondsToDate it.expiresAt, it.metadata⟩

/-- `DynamoDBLock.forceReleaseLock`: an unconditional `DeleteItem`, which in
DynamoDB succeeds whether or not the item exists; returns true. -/
def forceReleaseLock (t : Table) (p : String) : Bool × Table :=
  (true, recDelete t p)

/-- `DynamoDBLock.getLockInfo`: reads the item; a found-but-expired item is
deleted through `forceReleaseLock` before returning none (lazy reclamation). -/
def getLockInfo (now : Int) (t : Table) (p : String) : Option LockInfo × Table :=
  match recGet t p with
  | none => (none, t)
  | some it =>
    let item := itemToLockInfo it
    if lockExpired now item then (none, (forceReleaseLock t p).2) else (some item, t)

/-- `DynamoDBLock.isLocked`: delegates to `getLockInfo` and reports whether it
returned a record, with the same state effect. -/
def isLocked (now : Int) (t : Table) (p : String) : Bool × Table :=
  ((getLockInfo now t p).1.isSome, (getLockInfo now t p).2)

/-- `DynamoDBLock.putLockItem`: a `PutItem` with condition
`attribute_not_exists(hashKey)`; fails (conditional check) exactly when an item
is already stored for the path. Timestamps are floored to whole seconds. -/
def putLockItem (t : Table) (p lockId : String) (acquiredAt expiresAt : Int)
    (meta : Metadata) : Option Table :=
  match recGet t p with
  | some _ => none
  | none =>
    some (recSet t p
      ⟨lockId, dateToUnixTimestampInSeconds acquiredAt,
        dateToUnixTimestampInSeconds expiresAt, meta⟩)

/-- `DynamoDBLock.tryAcquireLock`: one acquisition attempt — read (with
reclamation), bail out if a live record exists, otherwise generate a fresh id
and conditionally put the new item. -/
def tryAcquireLock (now timeout : Int) (meta : Metadata) (p : String) (st : State) :
    LockResult × State :=
  match (getLockInfo now st.table p).1 with
  | some _ => (⟨false, none, none, none⟩, ⟨(getLockInfo now st.table p).2, st.nextId⟩)
  | none =>
    match putLockItem (getLockInfo now st.table p).2 p (uuidv4 st.nextId) now
        (now + timeout) meta with
    | some t2 =>
      (⟨true, some (uuidv4 st.nextId), some (now + timeout), none⟩, ⟨t2, st.nextId + 1⟩)
    | none =>
      (⟨false, none, none, none⟩, ⟨(getLockInfo now st.table p).2, st.nextId + 1⟩)

/-- The value returned after exhausting all attempts. -/
def failedResult : LockResult :=
  ⟨false, none, none, some "Failed to acquire lock after retries"⟩

/-- The attempt loop of `DynamoDBLock.acquireLock`; as for the file backend it
also returns the number of attempts performed and of `retryDelay` waits taken. -/
def acquireLoop (now timeout : Int) (meta : Metadata) (p : String) :
    Nat → State → LockResult × State × Nat × Nat
  | 0, st => (failedResult, st, 0, 0)
  | fuel + 1, st =>
    let a := tryAcquireLock now timeout meta p st
    if a.1.success then (a.1, a.2, 1, 0)
    else if fuel = 0 then (failedResult, a.2, 1, 0)
    else
      let r := acquireLoop now timeout meta p fuel a.2
      (r.1, r.2.1, r.2.2.1 + 1, r.2.2.2 + 1)

/-- `DynamoDBLock.acquireLock`: option defaults come from the manager's
`defaultLockConfiguration`; runs `retries + 1` attempts. -/
def acquireLock (now : Int) (mgr : Manager) (p : String) (options : LockOptions)
    (st : State) : LockResult × State × Nat × Nat :=
  acquireLoop now (options.timeout.getD mgr.defaultLockConfiguration.timeout)
    (options.metadata.getD []) p
    (options.retries.getD mgr.defaultLockConfiguration.retries + 1) st

/-- `DynamoDBLock.releaseLock`: a truthy `lockId` adds the condition
`lockId = :lockId` to the `DeleteItem`; the conditional check fails — returning
false — when the item is absent or stores a different id. Without a truthy
`lockId` the delete is unconditional and returns true. -/
def releaseLock (t : Table) (p : String) (lockId : Option String) : Bool × Table :=
  if jsTruthy lockId then
    match recGet t p with
    | some it => if some it.lockId = lockId then (true, recDelete t p) else (false, t)
    | none => (false, t)
  else (true, recDelete t p)

/-- The conditional `UpdateItem` of `extendLock`: sets `expiresAt` only when the
stored item still has the given id and the previously read `expiresAt` value;
fails the conditional check otherwise (also when the item is absent). -/
def updateIf (t : Table) (p lockId : String) (currentExpiresAt newExpiresAt : Int) :
    Option Table :=
  match recGet t p with
  | none => none
  | some it =>
    if it.lockId = lockId ∧ it.expiresAt = currentExpiresAt then
      some (recSet t p { it with expiresAt := newExpiresAt })
    else none

/-- `DynamoDBLock.extendLock` in the sequential model: read (with reclamation),
fail when absent, id mismatch or expired, otherwise conditionally update
`expiresAt` to the stored value plus `duration` (floored back to seconds). -/
def extendLock (now : Int) (t : Table) (p lockId : String) (duration : Int) :
    Bool × Table :=
  match (getLockInfo now t p).1 with
  | none => (false, (getLockInfo now t p).2)
  | some existingLock =>
    if existingLock.lockId ≠ lockId ∨ lockExpired now existingLock then
      (false, (getLockInfo now t p).2)
    else
      match updateIf (getLockInfo now t p).2 p lockId
          (dateToUnixTimestampInSeconds existingLock.expiresAt)
          (dateToUnixTimestampInSeconds (existingLock.expiresAt + duration)) with
      | some t2 => (true, t2)
      | none => (false, (getLockInfo now t p).2)

/-- All stored lock ids were produced by the uuid source at indices below the
counter. Holds in every reachable state. -/
def GoodIds (st : State) : Prop :=
  ∀ p it, recGet st.table p = some it → ∃ k, k < st.nextId ∧ it.lockId = uuidv4 k

end DynamoDBLock

namespace LocalJsonLock

theorem getLockInfo_snd (now : Int) (locks : Locks) (p : String) :
    (getLockInfo now locks p).2 = locks := by
  unfold getLockInfo
  cases recGet locks p with
  | none => rfl
  | some l => by_cases h : lockExpired now l <;> simp [h]

theorem getLockInfo_fst_eq_some (now : Int) (locks : Locks) (p : String) (l : LockInfo) :
    (getLockInfo now locks p).1 = some l ↔
      recGet locks p = some l ∧ lockExpired now l = false := by
  unfold getLockInfo
  cases hg : recGet locks p with
  | none => simp
  | some l0 =>
    by_cases h : lockExpired now l0
    · simp [h]
      intro he
      rw [← he]
      exact h
    · simp [h]
      intro he
      rw [← he]
      simpa using h

theorem isLocked_eq_isSome (now : Int) (locks : Locks) (p : String) :
    isLocked now locks p = (getLockInfo now locks p).1.isSome := by
  unfold isLocked getLockInfo
  cases recGet locks p with
  | none => rfl
  | some l => by_cases h : lockExpired now l <;> simp [h]

theorem acquireLoop_locked (now timeout : Int) (meta : Metadata) (p : String)
    (fuel : Nat) (st : State) (h : isLocked now st.locks p = true) :
    acquireLoop now timeout meta p fuel st = (failedResult, st, fuel, fuel - 1) := by
  induction fuel with
  | zero => rfl
  | succ f ih =>
    by_cases hf : f = 0
    · subst hf
      simp [acquireLoop, h]
    · simp only [acquireLoop, h, if_true, hf, if_false, ih]
      refine congrArg (Prod.mk failedResult) (congrArg (Prod.mk st) ?_)
      have h1 : f - 1 + 1 = f := Nat.succ_pred_eq_of_pos (Nat.pos_of_ne_zero hf)
      rw [h1]
      rfl

theorem acquireLoop_free (now timeout : Int) (meta : Metadata) (p : String)
    (fuel : Nat) (st : State) (h : isLocked now st.locks p = false) :
    acquireLoop now timeout meta p (fuel + 1) st =
      (⟨true, some (uuidv4 st.nextId), some (now + timeout), none⟩,
        ⟨recSet st.locks p ⟨uuidv4 st.nextId, now, now + timeout, meta⟩,
          st.nextId + 1⟩, 1, 0) := by
  simp [acquireLoop, h]

end LocalJsonLock

namespace DynamoDBLock

theorem getLockInfo_fst_some_iff (now : Int) (t : Table) (p : String) (l : LockInfo) :
    (getLockInfo now t p).1 = some l ↔
      ∃ it, recGet t p = some it ∧ itemToLockInfo it = l
        ∧ lockExpired now (itemToLockInfo it) = false := by
  unfold getLockInfo
  cases hg : recGet t p with
  | none => simp
  | some it =>
    by_cases h : lockExpired now (itemToLockInfo it)
    · simp [h]
    · simp [h]

theorem getLockInfo_fst_some_snd (now : Int) (t : Table) (p : String) (l : LockInfo)
    (h : (getLockInfo now t p).1 = some l) : (getLockInfo now t p).2 = t := by
  unfold getLockInfo at *
  cases hg : recGet t p with
  | none => rfl
  | some it =>
    by_cases he : lockExpired now (itemToLockInfo it)
    · rw [hg] at h
      simp [he] at h
    · simp [hg, he]

theorem getLockInfo_none_recGet (now : Int) (t : Table) (p : String)
    (h : (getLockInfo now t p).1 = none) :
    recGet (getLockInfo now t p).2 p = none := by
  unfold getLockInfo at *
  cases hg : recGet t p with
  | none => simp [hg]
  | some it =>
    by_cases he : lockExpired now (itemToLockInfo it)
    · simp [hg, he, forceReleaseLock, recGet_recDelete_self]
    · rw [hg] at h
      simp [he] at h

theorem getLockInfo_snd_other (now : Int) (t : Table) (p q : String) (h : q ≠ p) :
    recGet (getLockInfo now t p).2 q = recGet t q := by
  unfold getLockInfo
  cases hg : recGet t p with
  | none => rfl
  | some it =>
    by_cases he : lockExpired now (itemToLockInfo it)
    · simp [he, forceReleaseLock, recGet_recDelete_ne t h]
    · simp [he]

theorem tryAcquireLock_of_some (now timeout : Int) (meta : Metadata) (p : String)
    (st : State) (l : LockInfo) (h : (getLockInfo now st.table p).1 = some l) :
    tryAcquireLock now timeout meta p st = (⟨false, none, none, none⟩, st) := by
  have hsnd := getLockInfo_fst_some_snd now st.table p l h
  unfold tryAcquireLock
  rw [h, hsnd]

theorem tryAcquireLock_of_none (now timeout : Int) (meta : Metadata) (p : String)
    (st : State) (h : (getLockInfo now st.table p).1 = none) :
    tryAcquireLock now timeout meta p st =
      (⟨true, some (uuidv4 st.nextId), some (now + timeout), none⟩,
        ⟨recSet (getLockInfo now st.table p).2 p
          ⟨uuidv4 st.nextId, dateToUnixTimestampInSeconds now,
            dateToUnixTimestampInSeconds (now + timeout), meta⟩, st.nextId + 1⟩) := by
  have hget := getLockInfo_none_recGet now st.table p h
  unfold tryAcquireLock
  rw [h]
  simp only [putLockItem, hget]

theorem acquireLoop_held (now timeout : Int) (meta : Metadata) (p : String)
    (fuel : Nat) (st : State) (l : LockInfo)
    (h : (getLockInfo now st.table p).1 = some l) :
    acquireLoop now timeout meta p fuel st = (failedResult, st, fuel, fuel - 1) := by
  induction fuel with
  | zero => rfl
  | succ f ih =>
    have htry := tryAcquireLock_of_some now timeout meta p st l h
    by_cases hf : f = 0
    · subst hf
      simp [acquireLoop, htry]
    · simp only [acquireLoop, htry, Bool.false_eq_true, if_false, hf, ih]
      refine congrArg (Prod.mk failedResult) (congrArg (Prod.mk st) ?_)
      have h1 : f - 1 + 1 = f := Nat.succ_pred_eq_of_pos (Nat.pos_of_ne_zero hf)
      rw [h1]
      rfl

theorem acquireLoop_unheld (now timeout : Int) (meta : Metadata) (p : String)
    (fuel : Nat) (st : State) (h : (getLockInfo now st.table p).1 = none) :
    acquireLoop now timeout meta p (fuel + 1) st =
      (⟨true, some (uuidv4 st.nextId), some (now + timeout), none⟩,
        ⟨recSet (getLockInfo now st.table p).2 p
          ⟨uuidv4 st.nextId, dateToUnixTimestampInSeconds now,
            dateToUnixTimestampInSeconds (now + timeout), meta⟩, st.nextId + 1⟩, 1, 0) := by
  have htry := tryAcquireLock_of_none now timeout meta p st h
  simp [acquireLoop, htry]

end DynamoDBLock

theorem fdiv_thousand_le (a : Int) : Int.fdiv a 1000 * 1000 ≤ a := by
  rw [Int.fdiv_eq_ediv a (by norm_num)]
  omega

theorem lt_fdiv_thousand_add (a : Int) : a < Int.fdiv a 1000 * 1000 + 1000 := by
  rw [Int.fdiv_eq_ediv a (by norm_num)]
  omega

theorem fdiv_thousand_mul_cancel (a : Int) : Int.fdiv (a * 1000) 1000 = a := by
  rw [Int.fdiv_eq_ediv _ (by norm_num)]
  omega

theorem now_lt_fdiv_of_le (now t : Int) (h : 1000 ≤ t) :
    now < Int.fdiv (now + t) 1000 * 1000 := by
  rw [Int.fdiv_eq_ediv _ (by norm_num)]
  omega

/-- C7: `isLockExpired` returns true iff the current time is at or past the
record's `expiresAt`, is a pure function of its input (no state appears in its
signature, so it can modify nothing), and fails with the validation error
exactly when the record is missing or lacks an `expiresAt` field. -/
theorem expiry_check_contract (now : Int) (lock : Option RawLockInfo) :
    (isLockExpired now lock = Except.ok true ↔
      ∃ l e, lock = some l ∧ l.expiresAt = some e ∧ now ≥ e)
    ∧ (isLockExpired now lock = Except.ok false ↔
      ∃ l e, lock = some l ∧ l.expiresAt = some e ∧ now < e)
    ∧ ((∃ msg, isLockExpired now lock = Except.error msg) ↔
      lock = none ∨ ∃ l, lock = some l ∧ l.expiresAt = none) := by
  rcases lock with _ | l
  · simp [isLockExpired]
  · rcases he : l.expiresAt with _ | e
    · simp [isLockExpired, he]
    · refine ⟨?_, ?_, ?_⟩
      · simp only [isLockExpired, he]
        constructor
        · intro h
          refine ⟨l, e, rfl, he, ?_⟩
          simpa using h
        · intro ⟨l2, e2, hl2, he2, hle⟩
          obtain rfl : l2 = l := by injection hl2 with h2; exact h2.symm
          rw [he] at he2
          obtain rfl : e2 = e := by injection he2 with h2; exact h2.symm
          simpa using hle
      · simp only [isLockExpired, he]
        constructor
        · intro h
          refine ⟨l, e, rfl, he, ?_⟩
          have h2 : decide (e ≤ now) = false := by injection h
          have h3 : ¬ e ≤ now := of_decide_eq_false h2
          omega
        · intro ⟨l2, e2, hl2, he2, hle⟩
          obtain rfl : l2 = l := by injection hl2 with h2; exact h2.symm
          rw [he] at he2
          obtain rfl : e2 = e := by injection he2 with h2; exact h2.symm
          simp
          omega
      · simp [isLockExpired, he]

/-- C8: in both backends, `isLocked` returns exactly whether `getLockInfo` would
return a record, and leaves the state exactly as `getLockInfo` would leave it
(for the file backend, both are read-only; for the store backend, `isLocked`
delegates to `getLockInfo`, reclamation included). -/
theorem isLocked_agrees_getLockInfo :
    (∀ (now : Int) (locks : LocalJsonLock.Locks) (p : String),
      LocalJsonLock.isLocked now locks p = (LocalJsonLock.getLockInfo now locks p).1.isSome
      ∧ (LocalJsonLock.getLockInfo now locks p).2 = locks)
    ∧ (∀ (now : Int) (t : DynamoDBLock.Table) (p : String),
      DynamoDBLock.isLocked now t p =
        ((DynamoDBLock.getLockInfo now t p).1.isSome, (DynamoDBLock.getLockInfo now t p).2)) :=
  ⟨fun now locks p =>
    ⟨LocalJsonLock.isLocked_eq_isSome now locks p, LocalJsonLock.getLockInfo_snd now locks p⟩,
    fun _ _ _ => rfl⟩

/-- C9: every item written by the store backend carries `acquiredAt` and
`expiresAt` as integer unix seconds produced by flooring the millisecond
timestamps (characterized by the floor bounds), and the constructed manager's
hash key attribute name defaults to the documented constant and is overridable. -/
theorem stored_item_seconds_and_hashkey :
    (∀ ms : Int, dateToUnixTimestampInSeconds ms * 1000 ≤ ms ∧
      ms < dateToUnixTimestampInSeconds ms * 1000 + 1000)
    ∧ (∀ (t : DynamoDBLock.Table) (p lockId : String) (acquiredAt expiresAt : Int)
        (meta : Metadata) (t2 : DynamoDBLock.Table),
        DynamoDBLock.putLockItem t p lockId acquiredAt expiresAt meta = some t2 →
        recGet t2 p = some ⟨lockId, dateToUnixTimestampInSeconds acquiredAt,
          dateToUnixTimestampInSeconds expiresAt, meta⟩)
    ∧ defaultHashKey = "path_key"
    ∧ (∀ name, (DynamoDBLock.make ⟨name, none, none⟩).hashKey = defaultHashKey)
    ∧ (∀ name hk dcfg, (DynamoDBLock.make ⟨name, some hk, dcfg⟩).hashKey = hk) := by
  refine ⟨?_, ?_, rfl, fun _ => rfl, fun _ _ _ => rfl⟩
  · intro ms
    exact ⟨fdiv_thousand_le ms, lt_fdiv_thousand_add ms⟩
  · intro t p lockId acquiredAt expiresAt meta t2 h
    unfold DynamoDBLock.putLockItem at h
    cases hg : recGet t p with
    | some it => rw [hg] at h; exact absurd h (by simp)
    | none =>
      rw [hg] at h
      injection h with h2
      rw [← h2]
      exact recGet_recSet_self t p _

/-- Witness for C9 at a concrete put: storing timestamps 1500 ms and 1900 ms on
an empty table floors both to 1 second. -/
theorem stored_item_seconds_witness :
    recGet (recSet ([] : DynamoDBLock.Table) "p" ⟨"A", 1, 1, []⟩) "p" =
      some ⟨"A", dateToUnixTimestampInSeconds 1500, dateToUnixTimestampInSeconds 1900, []⟩ :=
  stored_item_seconds_and_hashkey.2.1 [] "p" "A" 1500 1900 []
    (recSet ([] : DynamoDBLock.Table) "p" ⟨"A", 1, 1, []⟩) (by decide)

/-- C10: in both backends `releaseLock` with the lockId omitted is the same
function of the state as `forceReleaseLock`: both return true, delete whatever
record is stored at the path (regardless of id or expiry), and leave every
other path unchanged. -/
theorem release_without_id_is_force :
    (∀ (locks : LocalJsonLock.Locks) (p : String),
      LocalJsonLock.releaseLock locks p none = LocalJsonLock.forceReleaseLock locks p)
    ∧ (∀ (locks : LocalJsonLock.Locks) (p : String),
      (LocalJsonLock.forceReleaseLock locks p).1 = true
      ∧ recGet (LocalJsonLock.forceReleaseLock locks p).2 p = none
      ∧ ∀ q, q ≠ p → recGet (LocalJsonLock.forceReleaseLock locks p).2 q = recGet locks q)
    ∧ (∀ (t : DynamoDBLock.Table) (p : String),
      DynamoDBLock.releaseLock t p none = DynamoDBLock.forceReleaseLock t p)
    ∧ (∀ (t : DynamoDBLock.Table) (p : String),
      (DynamoDBLock.forceReleaseLock t p).1 = true
      ∧ recGet (DynamoDBLock.forceReleaseLock t p).2 p = none
      ∧ ∀ q, q ≠ p → recGet (DynamoDBLock.forceReleaseLock t p).2 q = recGet t q) := by
  refine ⟨?_, ?_, ?_, ?_⟩
  · intro locks p
    unfold LocalJsonLock.releaseLock LocalJsonLock.forceReleaseLock
    cases recGet locks p with
    | none => rfl
    | some l => simp [jsTruthy]
  · intro locks p
    unfold LocalJsonLock.forceReleaseLock
    cases hg : recGet locks p with
    | none => exact ⟨rfl, hg, fun q _ => rfl⟩
    | some l =>
      exact ⟨rfl, recGet_recDelete_self locks p, fun q hq => recGet_recDelete_ne locks hq⟩
  · intro t p
    unfold DynamoDBLock.releaseLock DynamoDBLock.forceReleaseLock
    simp [jsTruthy]
  · intro t p
    exact ⟨rfl, recGet_recDelete_self t p, fun q hq => recGet_recDelete_ne t hq⟩

/-- Witness for C10 on a concrete one-record state: force-releasing path a
leaves path b untouched and both release flavours agree. -/
theorem release_without_id_is_force_witness :
    LocalJsonLock.releaseLock [("a", ⟨"A", 0, 50, []⟩)] "a" none =
      LocalJsonLock.forceReleaseLock [("a", ⟨"A", 0, 50, []⟩)] "a"
    ∧ recGet (LocalJsonLock.forceReleaseLock [("a", ⟨"A", 0, 50, []⟩)] "a").2 "b" =
      recGet [("a", (⟨"A", 0, 50, []⟩ : LockInfo))] "b" :=
  ⟨release_without_id_is_force.1 [("a", ⟨"A", 0, 50, []⟩)] "a",
    (release_without_id_is_force.2.1 [("a", ⟨"A", 0, 50, []⟩)] "a").2.2 "b" (by decide)⟩

/-- C5 counterexample: on the store backend, releasing an absent path WITH a
lockId is a conditional delete whose condition check fails on the missing item,
so it returns false — the claim says such a release returns true. -/
theorem release_absent_with_id_counterexample :
    DynamoDBLock.releaseLock ([] : DynamoDBLock.Table) "p" (some "A") =
      (false, ([] : DynamoDBLock.Table)) := by
  decide

/-- C5 amended: the file backend behaves as claimed for a non-empty lockId
(absent path: true; mismatch: false without change; otherwise delete and true),
but an empty-string lockId is treated as omitted (JavaScript truthiness) and
deletes unconditionally; the store backend differs on an absent path: with a
non-empty lockId the conditional delete returns false, and only without a
truthy lockId is the absent-path release an idempotent true. -/
theorem release_contract :
    (∀ (locks : LocalJsonLock.Locks) (p : String) (lockId : Option String),
      recGet locks p = none → LocalJsonLock.releaseLock locks p lockId = (true, locks))
    ∧ (∀ (locks : LocalJsonLock.Locks) (p : String) (l : LockInfo) (id : String),
      recGet locks p = some l → id ≠ "" → l.lockId ≠ id →
      LocalJsonLock.releaseLock locks p (some id) = (false, locks))
    ∧ (∀ (locks : LocalJsonLock.Locks) (p : String) (l : LockInfo) (id : String),
      recGet locks p = some l → l.lockId = id →
      LocalJsonLock.releaseLock locks p (some id) = (true, recDelete locks p))
    ∧ (∀ (locks : LocalJsonLock.Locks) (p : String) (l : LockInfo),
      recGet locks p = some l →
      LocalJsonLock.releaseLock locks p (some "") = (true, recDelete locks p))
    ∧ (∀ (t : DynamoDBLock.Table) (p : String) (id : String),
      id ≠ "" → recGet t p = none →
      DynamoDBLock.releaseLock t p (some id) = (false, t))
    ∧ (∀ (t : DynamoDBLock.Table) (p : String) (it : DynamoDBLock.LockItem) (id : String),
      recGet t p = some it → id ≠ "" → it.lockId ≠ id →
      DynamoDBLock.releaseLock t p (some id) = (false, t))
    ∧ (∀ (t : DynamoDBLock.Table) (p : String) (it : DynamoDBLock.LockItem) (id : String),
      recGet t p = some it → id ≠ "" → it.lockId = id →
      DynamoDBLock.releaseLock t p (some id) = (true, recDelete t p))
    ∧ (∀ (t : DynamoDBLock.Table) (p : String),
      DynamoDBLock.releaseLock t p (some "") = (true, recDelete t p)) := by
  refine ⟨?_, ?_, ?_, ?_, ?_, ?_, ?_, ?_⟩
  · intro locks p lockId hg
    unfold LocalJsonLock.releaseLock
    rw [hg]
  · intro locks p l id hg hid hne
    unfold LocalJsonLock.releaseLock
    rw [hg]
    simp [jsTruthy, hid, hne]
  · intro locks p l id hg heq
    unfold LocalJsonLock.releaseLock
    rw [hg]
    simp [jsTruthy, heq]
  · intro locks p l hg
    unfold LocalJsonLock.releaseLock
    rw [hg]
    simp [jsTruthy]
  · intro t p id hid hg
    unfold DynamoDBLock.releaseLock
    rw [hg]
    simp [jsTruthy, hid]
  · intro t p it id hg hid hne
    unfold DynamoDBLock.releaseLock
    rw [hg]
    simp [jsTruthy, hid, hne]
  · intro t p it id hg hid heq
    unfold DynamoDBLock.releaseLock
    rw [hg]
    simp [jsTruthy, hid, heq]
  · intro t p
    unfold DynamoDBLock.releaseLock
    simp [jsTruthy]

/-- Witness for C5 amended on concrete states: a mismatching id leaves the file
backend record in place and returns false; a matching id on the store backend
deletes and returns true. -/
theorem release_contract_witness :
    LocalJsonLock.releaseLock [("p", ⟨"A", 0, 50, []⟩)] "p" (some "B") =
      (false, [("p", ⟨"A", 0, 50, []⟩)])
    ∧ DynamoDBLock.releaseLock [("p", ⟨"A", 0, 1, []⟩)] "p" (some "A") =
      (true, recDelete [("p", (⟨"A", 0, 1, []⟩ : DynamoDBLock.LockItem))] "p") :=
  ⟨release_contract.2.1 [("p", ⟨"A", 0, 50, []⟩)] "p" ⟨"A", 0, 50, []⟩ "B"
      (by decide) (by decide) (by decide),
    release_contract.2.2.2.2.2.2.1 [("p", ⟨"A", 0, 1, []⟩)] "p" ⟨"A", 0, 1, []⟩ "A"
      (by decide) (by decide) (by decide)⟩

/-- C4 counterexample: the file backend's `getLockInfo` on an expired record
returns none but leaves the record stored — no lazy-reclamation deletion
happens, contrary to the claim that both backends delete it. -/
theorem getLockInfo_no_reclamation_counterexample :
    lockExpired 10000 ⟨"A", 0, 5000, []⟩ = true
    ∧ (LocalJsonLock.getLockInfo 10000 [("p", ⟨"A", 0, 5000, []⟩)] "p").1 = none
    ∧ recGet (LocalJsonLock.getLockInfo 10000 [("p", ⟨"A", 0, 5000, []⟩)] "p").2 "p" =
      some ⟨"A", 0, 5000, []⟩ := by
  refine ⟨by decide, by decide, by decide⟩

/-- C4 amended: the store backend deletes a found-but-expired item before
returning none, and repeated calls keep returning none; the file backend
returns none for an expired record but leaves it stored (its mapping is
unchanged), and repeated calls also keep returning none without error; on an
absent path both backends return none and change nothing. -/
theorem getLockInfo_reclamation_contract :
    (∀ (now : Int) (t : DynamoDBLock.Table) (p : String) (it : DynamoDBLock.LockItem),
      recGet t p = some it → lockExpired now (DynamoDBLock.itemToLockInfo it) = true →
      (DynamoDBLock.getLockInfo now t p).1 = none
      ∧ recGet (DynamoDBLock.getLockInfo now t p).2 p = none
      ∧ DynamoDBLock.getLockInfo now (DynamoDBLock.getLockInfo now t p).2 p =
          (none, (DynamoDBLock.getLockInfo now t p).2))
    ∧ (∀ (now : Int) (locks : LocalJsonLock.Locks) (p : String) (l : LockInfo),
      recGet locks p = some l → lockExpired now l = true →
      (LocalJsonLock.getLockInfo now locks p).1 = none
      ∧ (LocalJsonLock.getLockInfo now locks p).2 = locks
      ∧ (LocalJsonLock.getLockInfo now (LocalJsonLock.getLockInfo now locks p).2 p).1 = none)
    ∧ (∀ (now : Int) (t : DynamoDBLock.Table) (p : String),
      recGet t p = none → DynamoDBLock.getLockInfo now t p = (none, t))
    ∧ (∀ (now : Int) (locks : LocalJsonLock.Locks) (p : String),
      recGet locks p = none → LocalJsonLock.getLockInfo now locks p = (none, locks)) := by
  refine ⟨?_, ?_, ?_, ?_⟩
  · intro now t p it hg he
    have h1 : DynamoDBLock.getLockInfo now t p = (none, recDelete t p) := by
      unfold DynamoDBLock.getLockInfo
      rw [hg]
      simp [he, DynamoDBLock.forceReleaseLock]
    refine ⟨by rw [h1], ?_, ?_⟩
    · rw [h1]
      exact recGet_recDelete_self t p
    · rw [h1]
      unfold DynamoDBLock.getLockInfo
      rw [recGet_recDelete_self t p]
  · intro now locks p l hg he
    have h1 : LocalJsonLock.getLockInfo now locks p = (none, locks) := by
      unfold LocalJsonLock.getLockInfo
      rw [hg]
      simp [he]
    refine ⟨by rw [h1], by rw [h1], ?_⟩
    rw [h1]
    unfold LocalJsonLock.getLockInfo
    rw [hg]
    simp [he]
  · intro now t p hg
    unfold DynamoDBLock.getLockInfo
    rw [hg]
  · intro now locks p hg
    unfold LocalJsonLock.getLockInfo
    rw [hg]

/-- Witness for C4 amended at a concrete expired item: the store backend
deletes it and keeps answering none afterwards. -/
theorem getLockInfo_reclamation_witness :
    (DynamoDBLock.getLockInfo 10000 [("q", ⟨"B", 0, 5, []⟩)] "q").1 = none
    ∧ recGet (DynamoDBLock.getLockInfo 10000 [("q", ⟨"B", 0, 5, []⟩)] "q").2 "q" = none
    ∧ DynamoDBLock.getLockInfo 10000
        (DynamoDBLock.getLockInfo 10000 [("q", ⟨"B", 0, 5, []⟩)] "q").2 "q" =
      (none, (DynamoDBLock.getLockInfo 10000 [("q", ⟨"B", 0, 5, []⟩)] "q").2) :=
  getLockInfo_reclamation_contract.1 10000 [("q", ⟨"B", 0, 5, []⟩)] "q"
    ⟨"B", 0, 5, []⟩ (by decide) (by decide)

theorem sec_roundtrip (s : Int) :
    dateToUnixTimestampInSeconds (unixTimestampInSecondsToDate s) = s := by
  unfold dateToUnixTimestampInSeconds unixTimestampInSecondsToDate
  exact fdiv_thousand_mul_cancel s

/-- C3 counterexample: the file backend's `extendLock` extends an already
expired record (matching id) and returns true, where the claim requires false
on an expired record. -/
theorem extend_expired_counterexample :
    lockExpired 20000 ⟨"A", 0, 5000, []⟩ = true
    ∧ LocalJsonLock.extendLock [("p", ⟨"A", 0, 5000, []⟩)] "p" "A" 100000 =
      (true, [("p", ⟨"A", 0, 105000, []⟩)]) := by
  refine ⟨by decide, by decide⟩

/-- C3 amended: the store backend behaves as claimed — false on absent, id
mismatch or expired record (the expired one being deleted by the read), and on
success a compare-and-set update of the stored `expiresAt` to stored-plus-D
(floored back to whole seconds), where the conditional update fails whenever
the stored item no longer carries the previously read id and `expiresAt`. The
file backend returns false only on absent record or id mismatch — it checks no
expiry and does an unconditional rewrite rather than a compare-and-set — and on
success sets `expiresAt` to the stored value plus D. -/
theorem extend_contract :
    (∀ (locks : LocalJsonLock.Locks) (p id : String) (dur : Int),
      recGet locks p = none → LocalJsonLock.extendLock locks p id dur = (false, locks))
    ∧ (∀ (locks : LocalJsonLock.Locks) (p id : String) (l : LockInfo) (dur : Int),
      recGet locks p = some l → l.lockId ≠ id →
      LocalJsonLock.extendLock locks p id dur = (false, locks))
    ∧ (∀ (locks : LocalJsonLock.Locks) (p id : String) (l : LockInfo) (dur : Int),
      recGet locks p = some l → l.lockId = id →
      LocalJsonLock.extendLock locks p id dur =
        (true, recSet locks p ⟨l.lockId, l.acquiredAt, l.expiresAt + dur, l.metadata⟩))
    ∧ (∀ (now : Int) (t : DynamoDBLock.Table) (p id : String) (dur : Int),
      (DynamoDBLock.getLockInfo now t p).1 = none →
      DynamoDBLock.extendLock now t p id dur = (false, (DynamoDBLock.getLockInfo now t p).2))
    ∧ (∀ (now : Int) (t : DynamoDBLock.Table) (p id : String)
        (it : DynamoDBLock.LockItem) (dur : Int),
      recGet t p = some it → lockExpired now (DynamoDBLock.itemToLockInfo it) = true →
      DynamoDBLock.extendLock now t p id dur = (false, recDelete t p))
    ∧ (∀ (now : Int) (t : DynamoDBLock.Table) (p id : String) (l : LockInfo) (dur : Int),
      (DynamoDBLock.getLockInfo now t p).1 = some l → l.lockId ≠ id →
      DynamoDBLock.extendLock now t p id dur = (false, t))
    ∧ (∀ (now : Int) (t : DynamoDBLock.Table) (p id : String) (l : LockInfo) (dur : Int),
      (DynamoDBLock.getLockInfo now t p).1 = some l → l.lockId = id →
      ∃ it, recGet t p = some it
        ∧ DynamoDBLock.extendLock now t p id dur =
          (true, recSet t p ⟨it.lockId, it.acquiredAt,
            dateToUnixTimestampInSeconds (unixTimestampInSecondsToDate it.expiresAt + dur),
            it.metadata⟩))
    ∧ (∀ (t : DynamoDBLock.Table) (p id : String) (cur new : Int),
      recGet t p = none → DynamoDBLock.updateIf t p id cur new = none)
    ∧ (∀ (t : DynamoDBLock.Table) (p id : String) (it : DynamoDBLock.LockItem)
        (cur new : Int),
      recGet t p = some it → it.lockId ≠ id ∨ it.expiresAt ≠ cur →
      DynamoDBLock.updateIf t p id cur new = none) := by
  refine ⟨?_, ?_, ?_, ?_, ?_, ?_, ?_, ?_, ?_⟩
  · intro locks p id dur hg
    unfold LocalJsonLock.extendLock
    rw [hg]
  · intro locks p id l dur hg hne
    unfold LocalJsonLock.extendLock
    rw [hg]
    simp [hne]
  · intro locks p id l dur hg heq
    unfold LocalJsonLock.extendLock
    rw [hg]
    simp [heq]
  · intro now t p id dur hnone
    unfold DynamoDBLock.extendLock
    rw [hnone]
  · intro now t p id it dur hg he
    have h1 : DynamoDBLock.getLockInfo now t p = (none, recDelete t p) := by
      unfold DynamoDBLock.getLockInfo
      rw [hg]
      simp [he, DynamoDBLock.forceReleaseLock]
    unfold DynamoDBLock.extendLock
    rw [h1]
  · intro now t p id l dur hsome hne
    have hsnd := DynamoDBLock.getLockInfo_fst_some_snd now t p l hsome
    unfold DynamoDBLock.extendLock
    rw [hsome, hsnd]
    simp [hne]
  · intro now t p id l dur hsome heq
    obtain ⟨it, hg, hitem, hexp⟩ := (DynamoDBLock.getLockInfo_fst_some_iff now t p l).1 hsome
    have hsnd := DynamoDBLock.getLockInfo_fst_some_snd now t p l hsome
    refine ⟨it, hg, ?_⟩
    have hlockId : l.lockId = it.lockId := by rw [← hitem]; rfl
    have hexpAt : l.expiresAt = unixTimestampInSecondsToDate it.expiresAt := by
      rw [← hitem]; rfl
    have hnotexp : lockExpired now l = false := by rw [← hitem]; exact hexp
    have h1 : it.lockId = id := by rw [← hlockId, heq]
    have h2 : dateToUnixTimestampInSeconds l.expiresAt = it.expiresAt := by
      rw [hexpAt]
      unfold dateToUnixTimestampInSeconds unixTimestampInSecondsToDate
      exact fdiv_thousand_mul_cancel _
    have hupd : DynamoDBLock.updateIf t p id (dateToUnixTimestampInSeconds l.expiresAt)
        (dateToUnixTimestampInSeconds (l.expiresAt + dur)) =
        some (recSet t p ⟨it.lockId, it.acquiredAt,
          dateToUnixTimestampInSeconds (unixTimestampInSecondsToDate it.expiresAt + dur),
          it.metadata⟩) := by
      unfold DynamoDBLock.updateIf
      rw [hg]
      simp [h1, h2, hexpAt, sec_roundtrip]
    unfold DynamoDBLock.extendLock
    rw [hsome, hsnd]
    simp [heq, hnotexp, hupd]
  · intro t p id cur new hg
    unfold DynamoDBLock.updateIf
    rw [hg]
  · intro t p id it cur new hg hdiff
    unfold DynamoDBLock.updateIf
    rw [hg]
    rcases hdiff with h | h <;> simp [h]

/-- Witness for C3 amended: extending a live store-backend lock by 5500 ms at a
concrete state advances the stored whole-seconds expiry from 100 to 105. -/
theorem extend_contract_witness :
    ∃ it, recGet [("p", (⟨"A", 0, 100, []⟩ : DynamoDBLock.LockItem))] "p" = some it
      ∧ DynamoDBLock.extendLock 50000 [("p", ⟨"A", 0, 100, []⟩)] "p" "A" 5500 =
        (true, recSet [("p", (⟨"A", 0, 100, []⟩ : DynamoDBLock.LockItem))] "p"
          ⟨it.lockId, it.acquiredAt,
            dateToUnixTimestampInSeconds (unixTimestampInSecondsToDate it.expiresAt + 5500),
            it.metadata⟩) :=
  extend_contract.2.2.2.2.2.2.1 50000 [("p", ⟨"A", 0, 100, []⟩)] "p" "A"
    ⟨"A", 0, 100000, []⟩ 5500 (by decide) (by decide)

/-- C6 counterexample: with all options omitted the file backend performs only
2 attempts on a persistently held path, because its hard-coded default is
`retries = 1`, not the claimed shared default of 2 (which would give 3 attempts). -/
theorem default_retries_counterexample :
    LocalJsonLock.resolvedRetries {} = 1
    ∧ (LocalJsonLock.acquireLock 0 "p" {} ⟨[("p", ⟨"A", 0, 999999, []⟩)], 7⟩).2.2.1 = 2
    ∧ ¬ ((LocalJsonLock.acquireLock 0 "p" {} ⟨[("p", ⟨"A", 0, 999999, []⟩)], 7⟩).2.2.1
        = defaultLockConfiguration.retries + 1) := by
  refine ⟨rfl, by decide, by decide⟩

/-- C6 amended: on a path that stays held, both backends perform exactly
`retries + 1` attempts with `retries` waits (none after the final attempt) and
return exactly the structured failure with error string
"Failed to acquire lock after retries"; the omitted-option defaults are
timeout 30000 ms and retryDelay 1000 ms in both backends, but retries defaults
to 1 in the file backend (hard-coded) and 2 in the store backend (shared
default configuration). -/
theorem acquire_retry_contract :
    (∀ (now : Int) (p : String) (opts : LockOptions) (st : LocalJsonLock.State),
      LocalJsonLock.isLocked now st.locks p = true →
      LocalJsonLock.acquireLock now p opts st =
        (LocalJsonLock.failedResult, st, LocalJsonLock.resolvedRetries opts + 1,
          LocalJsonLock.resolvedRetries opts))
    ∧ (∀ (now : Int) (mgr : DynamoDBLock.Manager) (p : String) (opts : LockOptions)
        (st : DynamoDBLock.State) (l : LockInfo),
      (DynamoDBLock.getLockInfo now st.table p).1 = some l →
      DynamoDBLock.acquireLock now mgr p opts st =
        (DynamoDBLock.failedResult, st,
          opts.retries.getD mgr.defaultLockConfiguration.retries + 1,
          opts.retries.getD mgr.defaultLockConfiguration.retries))
    ∧ LocalJsonLock.failedResult =
        ⟨false, none, none, some "Failed to acquire lock after retries"⟩
    ∧ DynamoDBLock.failedResult =
        ⟨false, none, none, some "Failed to acquire lock after retries"⟩
    ∧ LocalJsonLock.resolvedTimeout {} = 30000
    ∧ LocalJsonLock.resolvedRetries {} = 1
    ∧ LocalJsonLock.resolvedRetryDelay {} = 1000
    ∧ defaultLockConfiguration = ⟨30000, 2, 1000⟩
    ∧ (∀ name, (DynamoDBLock.make ⟨name, none, none⟩).defaultLockConfiguration =
        defaultLockConfiguration) := by
  refine ⟨?_, ?_, rfl, rfl, rfl, rfl, rfl, rfl, fun _ => rfl⟩
  · intro now p opts st h
    unfold LocalJsonLock.acquireLock
    rw [LocalJsonLock.acquireLoop_locked now (LocalJsonLock.resolvedTimeout opts)
      (opts.metadata.getD []) p (LocalJsonLock.resolvedRetries opts + 1) st h]
    rfl
  · intro now mgr p opts st l h
    unfold DynamoDBLock.acquireLock
    rw [DynamoDBLock.acquireLoop_held now
      (opts.timeout.getD mgr.defaultLockConfiguration.timeout)
      (opts.metadata.getD []) p
      (opts.retries.getD mgr.defaultLockConfiguration.retries + 1) st l h]
    rfl

/-- Witness for C6 amended: a held path with two configured retries yields
exactly 3 attempts and 2 waits on the file backend. -/
theorem acquire_retry_contract_witness :
    LocalJsonLock.acquireLock 0 "p" { retries := some 2 }
        ⟨[("p", ⟨"A", 0, 999999, []⟩)], 3⟩ =
      (LocalJsonLock.failedResult, ⟨[("p", ⟨"A", 0, 999999, []⟩)], 3⟩, 3, 2) :=
  acquire_retry_contract.1 0 "p" { retries := some 2 }
    ⟨[("p", ⟨"A", 0, 999999, []⟩)], 3⟩ (by decide)

/-- C2 counterexample: on the store backend, acquiring with a 400 ms timeout at
now = 1500 succeeds and returns expiresAt 1900 (the lease is not yet past), but
the stored expiry is floored to 1 whole second (= 1000 ms), so isLocked is
immediately false and getLockInfo immediately null — contrary to the claim. -/
theorem acquire_subsecond_counterexample :
    (DynamoDBLock.acquireLock 1500 (DynamoDBLock.make ⟨"T", none, none⟩) "p"
        { timeout := some 400 } ⟨[], 0⟩).1 =
      ⟨true, some (uuidv4 0), some 1900, none⟩
    ∧ (1500 : Int) < 1900
    ∧ (DynamoDBLock.isLocked 1500
        (DynamoDBLock.acquireLock 1500 (DynamoDBLock.make ⟨"T", none, none⟩) "p"
          { timeout := some 400 } ⟨[], 0⟩).2.1.table "p").1 = false
    ∧ (DynamoDBLock.getLockInfo 1500
        (DynamoDBLock.acquireLock 1500 (DynamoDBLock.make ⟨"T", none, none⟩) "p"
          { timeout := some 400 } ⟨[], 0⟩).2.1.table "p").1 = none := by
  refine ⟨by decide, by decide, by decide, by decide⟩

/-- C2 amended: immediately after a successful acquisition (same clock value),
isLocked is true and getLockInfo returns the record whose lockId is the
returned one, provided the granted lease extends past the acquisition instant
as stored: a strictly positive timeout for the file backend, and a timeout of
at least 1000 ms for the store backend (whose stored expiry is floored to whole
seconds); the returned lockId is the freshly generated one — distinct from the
id of every record stored by an earlier acquisition. -/
theorem acquire_postcondition :
    (∀ (now : Int) (p : String) (opts : LockOptions) (st : LocalJsonLock.State)
        (res : LockResult) (st2 : LocalJsonLock.State) (a w : Nat) (L : String),
      LocalJsonLock.acquireLock now p opts st = (res, st2, a, w) →
      res.success = true → res.lockId = some L →
      0 < LocalJsonLock.resolvedTimeout opts →
      LocalJsonLock.isLocked now st2.locks p = true
      ∧ (∃ l, (LocalJsonLock.getLockInfo now st2.locks p).1 = some l ∧ l.lockId = L)
      ∧ L = uuidv4 st.nextId
      ∧ (LocalJsonLock.GoodIds st →
          ∀ q l0, recGet st.locks q = some l0 → l0.lockId ≠ L))
    ∧ (∀ (now : Int) (mgr : DynamoDBLock.Manager) (p : String) (opts : LockOptions)
        (st : DynamoDBLock.State) (res : LockResult) (st2 : DynamoDBLock.State)
        (a w : Nat) (L : String),
      DynamoDBLock.acquireLock now mgr p opts st = (res, st2, a, w) →
      res.success = true → res.lockId = some L →
      1000 ≤ opts.timeout.getD mgr.defaultLockConfiguration.timeout →
      (DynamoDBLock.isLocked now st2.table p).1 = true
      ∧ (∃ l, (DynamoDBLock.getLockInfo now st2.table p).1 = some l ∧ l.lockId = L)
      ∧ L = uuidv4 st.nextId
      ∧ (DynamoDBLock.GoodIds st →
          ∀ q it, recGet st.table q = some it → it.lockId ≠ L)) := by
  constructor
  · intro now p opts st res st2 a w L hacq hsucc hlid htpos
    have hfree : LocalJsonLock.isLocked now st.locks p = false := by
      cases hl : LocalJsonLock.isLocked now st.locks p with
      | false => rfl
      | true =>
        exfalso
        unfold LocalJsonLock.acquireLock at hacq
        rw [LocalJsonLock.acquireLoop_locked now (LocalJsonLock.resolvedTimeout opts)
          (opts.metadata.getD []) p (LocalJsonLock.resolvedRetries opts + 1) st hl] at hacq
        injection hacq with h1 _
        rw [← h1] at hsucc
        exact absurd hsucc (by decide)
    unfold LocalJsonLock.acquireLock at hacq
    rw [LocalJsonLock.acquireLoop_free now (LocalJsonLock.resolvedTimeout opts)
      (opts.metadata.getD []) p (LocalJsonLock.resolvedRetries opts) st hfree] at hacq
    injection hacq with hres hrest
    injection hrest with hst2 _
    have hL : L = uuidv4 st.nextId := by
      rw [← hres] at hlid
      injection hlid with h2
      exact h2.symm
    have hnexp : lockExpired now
        ⟨uuidv4 st.nextId, now, now + LocalJsonLock.resolvedTimeout opts,
          opts.metadata.getD []⟩ = false := by
      simp only [lockExpired, decide_eq_false_iff_not]
      omega
    refine ⟨?_, ?_, hL, ?_⟩
    · rw [← hst2]
      unfold LocalJsonLock.isLocked
      rw [recGet_recSet_self]
      simp [hnexp]
    · refine ⟨⟨uuidv4 st.nextId, now, now + LocalJsonLock.resolvedTimeout opts,
        opts.metadata.getD []⟩, ?_, by rw [hL]⟩
      rw [← hst2]
      simp [LocalJsonLock.getLockInfo, recGet_recSet_self, hnexp]
    · intro hgood q l0 hq hcontra
      obtain ⟨k, hk, hkid⟩ := hgood q l0 hq
      rw [hkid, hL] at hcontra
      exact absurd (uuidv4_injective hcontra) (Nat.ne_of_lt hk)
  · intro now mgr p opts st res st2 a w L hacq hsucc hlid htge
    have hfree : (DynamoDBLock.getLockInfo now st.table p).1 = none := by
      cases hl : (DynamoDBLock.getLockInfo now st.table p).1 with
      | none => rfl
      | some l =>
        exfalso
        unfold DynamoDBLock.acquireLock at hacq
        rw [DynamoDBLock.acquireLoop_held now
          (opts.timeout.getD mgr.defaultLockConfiguration.timeout)
          (opts.metadata.getD []) p
          (opts.retries.getD mgr.defaultLockConfiguration.retries + 1) st l hl] at hacq
        injection hacq with h1 _
        rw [← h1] at hsucc
        exact absurd hsucc (by decide)
    unfold DynamoDBLock.acquireLock at hacq
    rw [DynamoDBLock.acquireLoop_unheld now
      (opts.timeout.getD mgr.defaultLockConfiguration.timeout)
      (opts.metadata.getD []) p
      (opts.retries.getD mgr.defaultLockConfiguration.retries) st hfree] at hacq
    injection hacq with hres hrest
    injection hrest with hst2 _
    have hL : L = uuidv4 st.nextId := by
      rw [← hres] at hlid
      injection hlid with h2
      exact h2.symm
    have hnexp : lockExpired now (DynamoDBLock.itemToLockInfo
        ⟨uuidv4 st.nextId, dateToUnixTimestampInSeconds now,
          dateToUnixTimestampInSeconds
            (now + opts.timeout.getD mgr.defaultLockConfiguration.timeout),
          opts.metadata.getD []⟩) = false := by
      simp only [lockExpired, DynamoDBLock.itemToLockInfo, decide_eq_false_iff_not,
        unixTimestampInSecondsToDate, dateToUnixTimestampInSeconds]
      have := now_lt_fdiv_of_le now
        (opts.timeout.getD mgr.defaultLockConfiguration.timeout) htge
      omega
    have hpost : (DynamoDBLock.getLockInfo now st2.table p).1 =
        some (DynamoDBLock.itemToLockInfo
          ⟨uuidv4 st.nextId, dateToUnixTimestampInSeconds now,
            dateToUnixTimestampInSeconds
              (now + opts.timeout.getD mgr.defaultLockConfiguration.timeout),
            opts.metadata.getD []⟩) := by
      rw [← hst2]
      simp [DynamoDBLock.getLockInfo, recGet_recSet_self, hnexp]
    refine ⟨?_, ?_, hL, ?_⟩
    · unfold DynamoDBLock.isLocked
      rw [hpost]
      rfl
    · refine ⟨_, hpost, by rw [hL]; rfl⟩
    · intro hgood q it hq hcontra
      obtain ⟨k, hk, hkid⟩ := hgood q it hq
      rw [hkid, hL] at hcontra
      exact absurd (uuidv4_injective hcontra) (Nat.ne_of_lt hk)

/-- Witness for C2 amended: the first acquisition on an empty file-backend
state at time 0 with default options yields a held lock whose stored id is the
freshly generated one. -/
theorem acquire_postcondition_witness :
    LocalJsonLock.isLocked 0 (recSet [] "p" ⟨uuidv4 0, 0, 30000, []⟩) "p" = true
    ∧ (∃ l, (LocalJsonLock.getLockInfo 0
        (recSet [] "p" ⟨uuidv4 0, 0, 30000, []⟩) "p").1 = some l ∧ l.lockId = uuidv4 0)
    ∧ uuidv4 0 = uuidv4 0
    ∧ (LocalJsonLock.GoodIds ⟨[], 0⟩ →
        ∀ q l0, recGet ([] : LocalJsonLock.Locks) q = some l0 → l0.lockId ≠ uuidv4 0) :=
  acquire_postcondition.1 0 "p" {} ⟨[], 0⟩ ⟨true, some (uuidv4 0), some 30000, none⟩
    ⟨recSet [] "p" ⟨uuidv4 0, 0, 30000, []⟩, 1⟩ 1 0 (uuidv4 0) (by decide) rfl rfl (by decide)

/-- C1 counterexample: the file backend's `extendLock` performs an
ABSENT-to-LOCKED transition that is not an acquisition — at time 30000 the
stored record is expired (observed ABSENT through the read path), yet extending
with the old id succeeds and the path becomes LOCKED again under that old id. -/
theorem revive_transition_counterexample :
    (LocalJsonLock.getLockInfo 30000 [("r", ⟨"Z", 0, 1000, []⟩)] "r").1 = none
    ∧ (LocalJsonLock.extendLock [("r", ⟨"Z", 0, 1000, []⟩)] "r" "Z" 999000).1 = true
    ∧ (LocalJsonLock.getLockInfo 30000
        (LocalJsonLock.extendLock [("r", ⟨"Z", 0, 1000, []⟩)] "r" "Z" 999000).2 "r").1 =
      some ⟨"Z", 0, 1000000, []⟩ := by
  refine ⟨by decide, by decide, by decide⟩

theorem LocalJsonLock.isLocked_false_getLockInfo (now : Int)
    (locks : LocalJsonLock.Locks) (p : String)
    (h : LocalJsonLock.isLocked now locks p = false) :
    (LocalJsonLock.getLockInfo now locks p).1 = none := by
  have := LocalJsonLock.isLocked_eq_isSome now locks p
  rw [h] at this
  cases hg : (LocalJsonLock.getLockInfo now locks p).1 with
  | none => rfl
  | some l => rw [hg] at this; exact absurd this.symm (by simp)

theorem LocalJsonLock.getLockInfo_none_of_some (now : Int)
    (locks : LocalJsonLock.Locks) (p : String) (l : LockInfo)
    (hg : recGet locks p = some l)
    (h : (LocalJsonLock.getLockInfo now locks p).1 = none) :
    lockExpired now l = true := by
  unfold LocalJsonLock.getLockInfo at h
  rw [hg] at h
  by_cases he : lockExpired now l
  · exact he
  · simp [he] at h

theorem DynamoDBLock.getLockInfo_absent (now : Int) (t : DynamoDBLock.Table)
    (p : String) (h : recGet t p = none) :
    DynamoDBLock.getLockInfo now t p = (none, t) := by
  unfold DynamoDBLock.getLockInfo
  rw [h]

/-- C1 amended: through the read path at most one record is observable per path
and never an expired one; every operation of both backends follows the claimed
per-path state machine — ABSENT to LOCKED only on successful acquisition,
LOCKED to ABSENT only on release, force-release or discovered expiry, LOCKED to
LOCKED with unchanged lockId on successful extension, failures and reads
leaving the observed state unchanged and no operation touching other paths —
with one exception: the file backend's `extendLock`, lacking an expiry check,
can also take an observed-ABSENT path whose stored record is expired back to
LOCKED under that record's old id. -/
theorem lock_state_machine :
    (∀ (now : Int) (locks : LocalJsonLock.Locks) (p : String) (l : LockInfo),
      (LocalJsonLock.getLockInfo now locks p).1 = some l → lockExpired now l = false)
    ∧ (∀ (now : Int) (locks : LocalJsonLock.Locks) (p : String),
      (LocalJsonLock.getLockInfo now locks p).2 = locks)
    ∧ (∀ (now : Int) (p : String) (opts : LockOptions) (st : LocalJsonLock.State)
        (res : LockResult) (st2 : LocalJsonLock.State) (a w : Nat),
      LocalJsonLock.acquireLock now p opts st = (res, st2, a, w) →
      (res.success = false → st2 = st)
      ∧ (res.success = true →
          (LocalJsonLock.getLockInfo now st.locks p).1 = none
          ∧ (∀ l, (LocalJsonLock.getLockInfo now st2.locks p).1 = some l →
              some l.lockId = res.lockId)
          ∧ ∀ q, q ≠ p → recGet st2.locks q = recGet st.locks q))
    ∧ (∀ (locks : LocalJsonLock.Locks) (p : String) (id : Option String)
        (b : Bool) (locks2 : LocalJsonLock.Locks),
      LocalJsonLock.releaseLock locks p id = (b, locks2) →
      (b = false → locks2 = locks)
      ∧ (locks2 = locks ∨ (recGet locks2 p = none
          ∧ ∀ q, q ≠ p → recGet locks2 q = recGet locks q)))
    ∧ (∀ (locks : LocalJsonLock.Locks) (p : String),
      recGet (LocalJsonLock.forceReleaseLock locks p).2 p = none
      ∧ ∀ q, q ≠ p →
        recGet (LocalJsonLock.forceReleaseLock locks p).2 q = recGet locks q)
    ∧ (∀ (now : Int) (locks : LocalJsonLock.Locks) (p id : String) (dur : Int)
        (b : Bool) (locks2 : LocalJsonLock.Locks),
      LocalJsonLock.extendLock locks p id dur = (b, locks2) →
      (b = false → locks2 = locks)
      ∧ (b = true →
          (∀ l3, (LocalJsonLock.getLockInfo now locks p).1 = some l3 → l3.lockId = id)
          ∧ (∀ l2, (LocalJsonLock.getLockInfo now locks2 p).1 = some l2 → l2.lockId = id)
          ∧ (∀ q, q ≠ p → recGet locks2 q = recGet locks q)
          ∧ ((LocalJsonLock.getLockInfo now locks p).1 = none →
              ∃ l, recGet locks p = some l ∧ lockExpired now l = true ∧ l.lockId = id)))
    ∧ (∀ (now : Int) (t : DynamoDBLock.Table) (p : String) (l : LockInfo),
      (DynamoDBLock.getLockInfo now t p).1 = some l → lockExpired now l = false)
    ∧ (∀ (now : Int) (t : DynamoDBLock.Table) (p : String),
      (DynamoDBLock.getLockInfo now (DynamoDBLock.getLockInfo now t p).2 p).1 =
        (DynamoDBLock.getLockInfo now t p).1
      ∧ ∀ q, q ≠ p → recGet (DynamoDBLock.getLockInfo now t p).2 q = recGet t q)
    ∧ (∀ (now : Int) (mgr : DynamoDBLock.Manager) (p : String) (opts : LockOptions)
        (st : DynamoDBLock.State) (res : LockResult) (st2 : DynamoDBLock.State) (a w : Nat),
      DynamoDBLock.acquireLock now mgr p opts st = (res, st2, a, w) →
      (res.success = false → st2 = st)
      ∧ (res.success = true →
          (DynamoDBLock.getLockInfo now st.table p).1 = none
          ∧ (∀ l, (DynamoDBLock.getLockInfo now st2.table p).1 = some l →
              some l.lockId = res.lockId)
          ∧ ∀ q, q ≠ p → recGet st2.table q = recGet st.table q))
    ∧ (∀ (t : DynamoDBLock.Table) (p : String) (id : Option String) (b : Bool)
        (t2 : DynamoDBLock.Table),
      DynamoDBLock.releaseLock t p id = (b, t2) →
      (b = false → t2 = t)
      ∧ (t2 = t ∨ (recGet t2 p = none ∧ ∀ q, q ≠ p → recGet t2 q = recGet t q)))
    ∧ (∀ (t : DynamoDBLock.Table) (p : String),
      recGet (DynamoDBLock.forceReleaseLock t p).2 p = none
      ∧ ∀ q, q ≠ p → recGet (DynamoDBLock.forceReleaseLock t p).2 q = recGet t q)
    ∧ (∀ (now : Int) (t : DynamoDBLock.Table) (p id : String) (dur : Int) (b : Bool)
        (t2 : DynamoDBLock.Table),
      DynamoDBLock.extendLock now t p id dur = (b, t2) →
      (b = false → t2 = (DynamoDBLock.getLockInfo now t p).2)
      ∧ (b = true →
          (∃ l, (DynamoDBLock.getLockInfo now t p).1 = some l ∧ l.lockId = id)
          ∧ (∀ l2, (DynamoDBLock.getLockInfo now t2 p).1 = some l2 → l2.lockId = id)
          ∧ ∀ q, q ≠ p → recGet t2 q = recGet t q)) := by
  refine ⟨?_, LocalJsonLock.getLockInfo_snd, ?_, ?_, ?_, ?_, ?_, ?_, ?_, ?_, ?_, ?_⟩
  · intro now locks p l h
    exact ((LocalJsonLock.getLockInfo_fst_eq_some now locks p l).1 h).2
  · intro now p opts st res st2 a w hacq
    cases hl : LocalJsonLock.isLocked now st.locks p with
    | true =>
      unfold LocalJsonLock.acquireLock at hacq
      rw [LocalJsonLock.acquireLoop_locked now (LocalJsonLock.resolvedTimeout opts)
        (opts.metadata.getD []) p (LocalJsonLock.resolvedRetries opts + 1) st hl] at hacq
      injection hacq with hres hrest
      injection hrest with hst2 _
      constructor
      · intro _
        exact hst2.symm
      · intro hsucc
        rw [← hres] at hsucc
        exact absurd hsucc (by decide)
    | false =>
      unfold LocalJsonLock.acquireLock at hacq
      rw [LocalJsonLock.acquireLoop_free now (LocalJsonLock.resolvedTimeout opts)
        (opts.metadata.getD []) p (LocalJsonLock.resolvedRetries opts) st hl] at hacq
      injection hacq with hres hrest
      injection hrest with hst2 _
      constructor
      · intro hfail
        rw [← hres] at hfail
        simp at hfail
      · intro _
        refine ⟨LocalJsonLock.isLocked_false_getLockInfo now st.locks p hl, ?_, ?_⟩
        · intro l hsome
          rw [← hst2] at hsome
          obtain ⟨hg, _⟩ :=
            (LocalJsonLock.getLockInfo_fst_eq_some now _ p l).1 hsome
          rw [recGet_recSet_self] at hg
          injection hg with hg2
          rw [← hg2, ← hres]
        · intro q hq
          rw [← hst2]
          exact recGet_recSet_ne st.locks _ hq
  · intro locks p id b locks2 hrel
    unfold LocalJsonLock.releaseLock at hrel
    cases hg : recGet locks p with
    | none =>
      rw [hg] at hrel
      injection hrel with hb hl2
      exact ⟨fun _ => hl2.symm, Or.inl hl2.symm⟩
    | some l =>
      rw [hg] at hrel
      by_cases hc : jsTruthy id = true ∧ some l.lockId ≠ id
      · have hval : (match some l with
            | none => (true, locks)
            | some l => if jsTruthy id = true ∧ some l.lockId ≠ id then (false, locks)
                else (true, recDelete locks p)) = ((false : Bool), locks) := by
          simp only []
          rw [if_pos hc]
        rw [hval] at hrel
        injection hrel with hb hl2
        exact ⟨fun _ => hl2.symm, Or.inl hl2.symm⟩
      · have hval : (match some l with
            | none => (true, locks)
            | some l => if jsTruthy id = true ∧ some l.lockId ≠ id then (false, locks)
                else (true, recDelete locks p)) = ((true : Bool), recDelete locks p) := by
          simp only []
          rw [if_neg hc]
        rw [hval] at hrel
        injection hrel with hb hl2
        refine ⟨fun hbf => absurd (hb.trans hbf) (by decide), Or.inr ⟨?_, ?_⟩⟩
        · rw [← hl2]
          exact recGet_recDelete_self locks p
        · intro q hq
          rw [← hl2]
          exact recGet_recDelete_ne locks hq
  · intro locks p
    unfold LocalJsonLock.forceReleaseLock
    cases hg : recGet locks p with
    | none => exact ⟨hg, fun q _ => rfl⟩
    | some l =>
      exact ⟨recGet_recDelete_self locks p, fun q hq => recGet_recDelete_ne locks hq⟩
  · intro now locks p id dur b locks2 hext
    unfold LocalJsonLock.extendLock at hext
    cases hg : recGet locks p with
    | none =>
      rw [hg] at hext
      injection hext with hb hl2
      refine ⟨fun _ => hl2.symm, fun hbt => absurd (hb.trans hbt) (by decide)⟩
    | some l =>
      rw [hg] at hext
      by_cases hc : l.lockId ≠ id
      · have hval : (match some l with
            | none => (false, locks)
            | some l => if l.lockId ≠ id then (false, locks)
                else (true, recSet locks p ⟨l.lockId, l.acquiredAt, l.expiresAt + dur,
                  l.metadata⟩)) = ((false : Bool), locks) := by
          simp only []
          rw [if_pos hc]
        rw [hval] at hext
        injection hext with hb hl2
        refine ⟨fun _ => hl2.symm, fun hbt => absurd (hb.trans hbt) (by decide)⟩
      · have hval : (match some l with
            | none => (false, locks)
            | some l => if l.lockId ≠ id then (false, locks)
                else (true, recSet locks p ⟨l.lockId, l.acquiredAt, l.expiresAt + dur,
                  l.metadata⟩)) = ((true : Bool), recSet locks p
                  ⟨l.lockId, l.acquiredAt, l.expiresAt + dur, l.metadata⟩) := by
          simp only []
          rw [if_neg hc]
        rw [hval] at hext
        injection hext with hb hl2
        have hid : l.lockId = id := not_not.mp hc
        refine ⟨fun hbf => absurd (hb.trans hbf) (by decide), fun _ => ⟨?_, ?_, ?_, ?_⟩⟩
        · intro l3 hsome
          obtain ⟨hg3, _⟩ := (LocalJsonLock.getLockInfo_fst_eq_some now locks p l3).1 hsome
          rw [hg] at hg3
          injection hg3 with hg4
          rw [← hg4, hid]
        · intro l2 hsome
          rw [← hl2] at hsome
          obtain ⟨hg2, _⟩ := (LocalJsonLock.getLockInfo_fst_eq_some now _ p l2).1 hsome
          rw [recGet_recSet_self] at hg2
          injection hg2 with hg3
          rw [← hg3]
          exact hid
        · intro q hq
          rw [← hl2]
          exact recGet_recSet_ne locks _ hq
        · intro hnone
          exact ⟨l, rfl,
            LocalJsonLock.getLockInfo_none_of_some now locks p l hg hnone, hid⟩
  · intro now t p l h
    obtain ⟨it, _, hitem, hexp⟩ := (DynamoDBLock.getLockInfo_fst_some_iff now t p l).1 h
    rw [← hitem]
    exact hexp
  · intro now t p
    constructor
    · cases hobs : (DynamoDBLock.getLockInfo now t p).1 with
      | some l =>
        rw [DynamoDBLock.getLockInfo_fst_some_snd now t p l hobs]
        exact hobs
      | none =>
        have hget := DynamoDBLock.getLockInfo_none_recGet now t p hobs
        rw [DynamoDBLock.getLockInfo_absent now _ p hget]
    · intro q hq
      exact DynamoDBLock.getLockInfo_snd_other now t p q hq
  · intro now mgr p opts st res st2 a w hacq
    cases hobs : (DynamoDBLock.getLockInfo now st.table p).1 with
    | some l =>
      unfold DynamoDBLock.acquireLock at hacq
      rw [DynamoDBLock.acquireLoop_held now
        (opts.timeout.getD mgr.defaultLockConfiguration.timeout)
        (opts.metadata.getD []) p
        (opts.retries.getD mgr.defaultLockConfiguration.retries + 1) st l hobs] at hacq
      injection hacq with hres hrest
      injection hrest with hst2 _
      constructor
      · intro _
        exact hst2.symm
      · intro hsucc
        rw [← hres] at hsucc
        exact absurd hsucc (by decide)
    | none =>
      unfold DynamoDBLock.acquireLock at hacq
      rw [DynamoDBLock.acquireLoop_unheld now
        (opts.timeout.getD mgr.defaultLockConfiguration.timeout)
        (opts.metadata.getD []) p
        (opts.retries.getD mgr.defaultLockConfiguration.retries) st hobs] at hacq
      injection hacq with hres hrest
      injection hrest with hst2 _
      constructor
      · intro hfail
        rw [← hres] at hfail
        simp at hfail
      · intro _
        refine ⟨rfl, ?_, ?_⟩
        · intro l hsome
          rw [← hst2] at hsome
          obtain ⟨it, hg, hitem, _⟩ :=
            (DynamoDBLock.getLockInfo_fst_some_iff now _ p l).1 hsome
          rw [recGet_recSet_self] at hg
          injection hg with hg2
          rw [← hres, ← hitem, ← hg2]
          rfl
        · intro q hq
          rw [← hst2]
          have h1 : recGet (recSet (DynamoDBLock.getLockInfo now st.table p).2 p
              ⟨uuidv4 st.nextId, dateToUnixTimestampInSeconds now,
                dateToUnixTimestampInSeconds
                  (now + opts.timeout.getD mgr.defaultLockConfiguration.timeout),
                opts.metadata.getD []⟩) q =
              recGet (DynamoDBLock.getLockInfo now st.table p).2 q :=
            recGet_recSet_ne _ _ hq
          rw [h1]
          exact DynamoDBLock.getLockInfo_snd_other now st.table p q hq
  · intro t p id b t2 hrel
    unfold DynamoDBLock.releaseLock at hrel
    by_cases ht : jsTruthy id = true
    · rw [if_pos ht] at hrel
      cases hg : recGet t p with
      | none =>
        rw [hg] at hrel
        injection hrel with hb hl2
        exact ⟨fun _ => hl2.symm, Or.inl hl2.symm⟩
      | some it =>
        rw [hg] at hrel
        by_cases hc : some it.lockId = id
        · have hval : (match some it with
              | some it => if some it.lockId = id then (true, recDelete t p) else (false, t)
              | none => (false, t)) = ((true : Bool), recDelete t p) := by
            simp only []
            rw [if_pos hc]
          rw [hval] at hrel
          injection hrel with hb hl2
          refine ⟨fun hbf => absurd (hb.trans hbf) (by decide), Or.inr ⟨?_, ?_⟩⟩
          · rw [← hl2]
            exact recGet_recDelete_self t p
          · intro q hq
            rw [← hl2]
            exact recGet_recDelete_ne t hq
        · have hval : (match some it with
              | some it => if some it.lockId = id then (true, recDelete t p) else (false, t)
              | none => (false, t)) = ((false : Bool), t) := by
            simp only []
            rw [if_neg hc]
          rw [hval] at hrel
          injection hrel with hb hl2
          exact ⟨fun _ => hl2.symm, Or.inl hl2.symm⟩
    · rw [if_neg ht] at hrel
      injection hrel with hb hl2
      refine ⟨fun hbf => absurd (hb.trans hbf) (by decide), Or.inr ⟨?_, ?_⟩⟩
      · rw [← hl2]
        exact recGet_recDelete_self t p
      · intro q hq
        rw [← hl2]
        exact recGet_recDelete_ne t hq
  · intro t p
    exact ⟨recGet_recDelete_self t p, fun q hq => recGet_recDelete_ne t hq⟩
  · intro now t p id dur b t2 hext
    cases hobs : (DynamoDBLock.getLockInfo now t p).1 with
    | none =>
      unfold DynamoDBLock.extendLock at hext
      rw [hobs] at hext
      injection hext with hb hl2
      exact ⟨fun _ => hl2.symm, fun hbt => absurd (hb.trans hbt) (by decide)⟩
    | some l =>
      have hsnd := DynamoDBLock.getLockInfo_fst_some_snd now t p l hobs
      obtain ⟨it, hg, hitem, hexp⟩ :=
        (DynamoDBLock.getLockInfo_fst_some_iff now t p l).1 hobs
      by_cases hc : l.lockId = id
      · have hnotexp : lockExpired now l = false := by rw [← hitem]; exact hexp
        have hcond : ¬ (l.lockId ≠ id ∨ lockExpired now l = true) := by
          rw [hc, hnotexp]
          simp
        have hlid2 : it.lockId = id := by
          rw [← hc, ← hitem]
          rfl
        have hsec : dateToUnixTimestampInSeconds l.expiresAt = it.expiresAt := by
          rw [← hitem]
          exact sec_roundtrip it.expiresAt
        have hupd : DynamoDBLock.updateIf t p id (dateToUnixTimestampInSeconds l.expiresAt)
            (dateToUnixTimestampInSeconds (l.expiresAt + dur)) =
            some (recSet t p ⟨it.lockId, it.acquiredAt,
              dateToUnixTimestampInSeconds (l.expiresAt + dur), it.metadata⟩) := by
          unfold DynamoDBLock.updateIf
          rw [hg]
          simp [hlid2, hsec]
        have hval : DynamoDBLock.extendLock now t p id dur =
            (true, recSet t p ⟨it.lockId, it.acquiredAt,
              dateToUnixTimestampInSeconds (l.expiresAt + dur), it.metadata⟩) := by
          unfold DynamoDBLock.extendLock
          rw [hobs, hsnd]
          simp [hcond, hupd]
        rw [hval] at hext
        injection hext with hb hl2
        refine ⟨fun hbf => absurd (hb.trans hbf) (by decide), fun _ => ⟨⟨l, rfl, hc⟩, ?_, ?_⟩⟩
        · intro l2 hsome
          rw [← hl2] at hsome
          obtain ⟨it2, hg2, hitem2, _⟩ :=
            (DynamoDBLock.getLockInfo_fst_some_iff now _ p l2).1 hsome
          rw [recGet_recSet_self] at hg2
          injection hg2 with hg3
          rw [← hitem2, ← hg3]
          exact hlid2
        · intro q hq
          rw [← hl2]
          exact recGet_recSet_ne t _ hq
      · have hcond : l.lockId ≠ id ∨ lockExpired now l = true := Or.inl hc
        have hval : DynamoDBLock.extendLock now t p id dur =
            (false, (DynamoDBLock.getLockInfo now t p).2) := by
          unfold DynamoDBLock.extendLock
          rw [hobs]
          simp only []
          rw [if_pos hcond]
        rw [hval] at hext
        injection hext with hb hl2
        exact ⟨fun _ => hl2.symm, fun hbt => absurd (hb.trans hbt) (by decide)⟩

/-- Witness for C1 amended: releasing the only record of a concrete file-backend
state is a LOCKED-to-ABSENT transition affecting no other path. -/
theorem lock_state_machine_witness :
    ((true : Bool) = false → ([] : LocalJsonLock.Locks) = [("x", ⟨"K", 0, 60, []⟩)])
    ∧ (([] : LocalJsonLock.Locks) = [("x", ⟨"K", 0, 60, []⟩)]
      ∨ (recGet ([] : LocalJsonLock.Locks) "x" = none
        ∧ ∀ q, q ≠ "x" → recGet ([] : LocalJsonLock.Locks) q =
            recGet [("x", (⟨"K", 0, 60, []⟩ : LockInfo))] q)) :=
  lock_state_machine.2.2.2.1 [("x", ⟨"K", 0, 60, []⟩)] "x" none true [] (by decide)
